import Mathlib

/-!
Verification development for the dair_pll dataset-management core.

This file gives a shallow embedding, in Lean 4, of the trajectory dataset
lifecycle manager of the dair_pll repository: the numeric file store
(file_utils.py), the trajectory slicer (TrajectorySliceDataset), the
three-way split computation and its dynamic growth
(SystemDataManager.get_trajectory_split), disk-backed selection
(SystemDataManager.get_trajectories), the population-growth loop
(SystemDataManager.generate), and bulk import (import_data_to_storage).

Modelling conventions:
- A trajectory is a list of states (one list element per time step); the
  state type is an arbitrary type parameter, since the manager never
  inspects state contents.
- Python ints are modelled by Int (or Nat where the source value is
  provably non-negative); Python float fractions are modelled as exact
  rationals represented by an explicit numerator/denominator pair, and
  the Python built-in round (banker's rounding, round-half-to-even) is
  implemented on that representation by exact integer arithmetic.
- Python list/tensor slicing (including negative-index normalisation and
  silent clamping) is modelled by pyIdx / pySlice / pyTake / pyDrop.
- Assertions and other raising paths are modelled with Option: none is
  an uncaught Python exception (failed assert, torch.randperm on a
  negative length).
- Randomness (torch.randperm) is modelled by passing the produced
  permutation as an explicit parameter, constrained in theorems to be a
  permutation of the relevant index range.
- The on-disk store is modelled by an abstract load function from
  trajectory index to trajectory, plus explicit on-disk counts; file
  names are modelled as lists of characters for the glob-counting code.
-/

/-! ## Python arithmetic and slicing semantics -/

/-! ## Trajectory Slicer (TrajectorySliceDataset) -/

/-! ## Trajectory Set and Data Manager state -/

/-! ## Numeric File Store (file_utils.py) -/

/-! ## Population growth loop (SystemDataManager.generate) -/

/-- Banker's rounding (Python round) of the exact rational num / den,
for a positive denominator den: round to the nearest integer, ties to
the even integer. Implemented with integer arithmetic only, so that it
evaluates by kernel reduction. -/
def pyRound (num den : ℤ) : ℤ :=
  if 2 * (num - num.fdiv den * den) < den then num.fdiv den
  else if den < 2 * (num - num.fdiv den * den) then num.fdiv den + 1
  else if num.fdiv den % 2 = 0 then num.fdiv den else num.fdiv den + 1

/-- Python slice-endpoint normalisation for a sequence of length L:
negative indices count from the end, and endpoints are clamped into
the range 0 .. L. -/
def pyIdx (L : ℕ) (i : ℤ) : ℕ :=
  if i < 0 then (i + L).toNat else min i.toNat L

/-- Python slice xs[a:b] (step 1) with full Python index semantics. -/
def pySlice {α : Type} (xs : List α) (a b : ℤ) : List α :=
  (xs.drop (pyIdx xs.length a)).take (pyIdx xs.length b - pyIdx xs.length a)

/-- Python slice xs[:n]. -/
def pyTake {α : Type} (n : ℤ) (xs : List α) : List α :=
  xs.take (pyIdx xs.length n)

/-- Python slice xs[n:]. -/
def pyDrop {α : Type} (n : ℤ) (xs : List α) : List α :=
  xs.drop (pyIdx xs.length n)

/-- Python truthiness of an Optional[int]: None and 0 are falsy. This is
the test performed by the source line: elif config.dynamic_updates_from. -/
def pyOptIntTruthy : Option ℤ → Bool
  | none => false
  | some k => decide (k ≠ 0)

/-- Windowing configuration of a TrajectorySliceDataset, dataclass fields
t_skip, t_history, t_prediction of DataConfig. -/
structure SlicerCfg where
  t_skip : ℕ
  t_history : ℕ
  t_prediction : ℕ

/-- Mutable state of a TrajectorySliceDataset: the two parallel
append-only slice lists in_slices and out_slices. -/
structure SlicerState (σ : Type) where
  in_slices : List (List σ)
  out_slices : List (List σ)

/-- The history windows contributed by one trajectory: for each loop
index i in range(first, last) of add_sliced_trajectory, the Python slice
traj[(i + 1 - t_history):(i + 1), :]. Here i = t_skip + k. -/
def traj_in_slices {σ : Type} (cfg : SlicerCfg) (traj : List σ) : List (List σ) :=
  (List.range (traj.length - cfg.t_prediction - cfg.t_skip)).map fun (k : ℕ) =>
    pySlice traj ((cfg.t_skip : ℤ) + (k : ℤ) + 1 - cfg.t_history) ((cfg.t_skip : ℤ) + (k : ℤ) + 1)

/-- The future windows contributed by one trajectory: the Python slice
traj[(i + 1):(i + 1 + t_prediction), :] for each i in range(first, last). -/
def traj_out_slices {σ : Type} (cfg : SlicerCfg) (traj : List σ) : List (List σ) :=
  (List.range (traj.length - cfg.t_prediction - cfg.t_skip)).map fun (k : ℕ) =>
    pySlice traj ((cfg.t_skip : ℤ) + (k : ℤ) + 1) ((cfg.t_skip : ℤ) + (k : ℤ) + 1 + cfg.t_prediction)

/-- TrajectorySliceDataset.add_sliced_trajectory. Computes
first = t_skip and last = len(traj) - t_prediction, asserts
first <= last (none = AssertionError), then appends the history/future
window of every anchor i in range(first, last) to the two slice lists. -/
def add_sliced_trajectory {σ : Type} (cfg : SlicerCfg) (st : SlicerState σ)
    (traj : List σ) : Option (SlicerState σ) :=
  if (cfg.t_skip : ℤ) ≤ (traj.length : ℤ) - cfg.t_prediction then
    some ⟨st.in_slices ++ traj_in_slices cfg traj,
          st.out_slices ++ traj_out_slices cfg traj⟩
  else none

/-- TrajectorySliceDataset.__len__. -/
def slice_dataset_len {σ : Type} (st : SlicerState σ) : ℕ :=
  st.in_slices.length

/-- TrajectorySliceDataset.__getitem__: the (history, future) pair at a
global slice index. Out-of-range access yields none components
(Python IndexError). -/
def get_slice_pair {σ : Type} (st : SlicerState σ) (idx : ℕ) :
    Option (List σ) × Option (List σ) :=
  (st.in_slices[idx]?, st.out_slices[idx]?)

/-- TrajectorySliceDataset.__init__: asserts t_skip + 1 >= t_history,
starts from empty slice lists and appends every given trajectory. -/
def trajectory_slice_dataset {σ : Type} (cfg : SlicerCfg)
    (trajectories : List (List σ)) : Option (SlicerState σ) :=
  if cfg.t_history ≤ cfg.t_skip + 1 then
    trajectories.foldlM (add_sliced_trajectory cfg) ⟨[], []⟩
  else none

/-- TrajectorySet dataclass: a slice dataset paired with the raw
trajectory list it was derived from. -/
structure TrajectorySet (σ : Type) where
  slices : SlicerState σ
  trajectories : List (List σ)

/-- TrajectorySliceDataset.__init__ run on a whole trajectory list:
asserts t_skip + 1 >= t_history, then appends every trajectory in order
starting from empty slice lists. -/
def make_trajectory_set {σ : Type} (cfg : SlicerCfg)
    (trajectories : List (List σ)) : Option (TrajectorySet σ) :=
  (trajectory_slice_dataset cfg trajectories).map fun sl =>
    ⟨sl, trajectories⟩

/-- A Python float fraction, modelled as the exact rational num / den. -/
structure PyFrac where
  num : ℤ
  den : ℤ

/-- The fraction lies in the unit interval and has a positive
denominator (split fractions are documented to lie in 0 .. 1). -/
def PyFrac.inUnit (f : PyFrac) : Prop :=
  0 < f.den ∧ 0 ≤ f.num ∧ f.num ≤ f.den

/-- round(x * f) for an integer x and a fraction f, exactly the Python
expression round(x * fraction) under the exact-rational model. -/
def round_mul (x : ℤ) (f : PyFrac) : ℤ :=
  pyRound (x * f.num) f.den

/-- The split-relevant fields of DataConfig: the three split fractions
and the dynamic-mode field dynamic_updates_from (None when not in
dynamic mode). -/
structure DataSplitConfig where
  train_fraction : PyFrac
  valid_fraction : PyFrac
  test_fraction : PyFrac
  dynamic_updates_from : Option ℤ

/-- The cached split state of a SystemDataManager after a successful
get_trajectory_split: the three TrajectorySet attributes and the cached
on-disk count self.n_on_disk. -/
structure ManagerSets (σ : Type) where
  train_set : TrajectorySet σ
  valid_set : TrajectorySet σ
  test_set : TrajectorySet σ
  n_on_disk : ℕ

/-- The index selection made by SystemDataManager.get_trajectories:
trajectory_order = randperm(N_end - N_begin) + N_begin, then
selection = trajectory_order[:N_requested]. The randperm result is the
perm parameter. -/
def trajectory_selection (perm : List ℕ) (N_begin : ℕ) (N_requested : ℤ) :
    List ℕ :=
  pyTake N_requested (perm.map fun j => j + N_begin)

/-- SystemDataManager.get_trajectories: asserts n_on_disk >= N_end
(none = AssertionError), draws a permutation of the index range
(none also stands for the torch.randperm error when
N_end < N_begin), selects the first N_requested permuted indices and
loads each one from disk. -/
def get_trajectories {σ : Type} (load : ℕ → List σ)
    (n_on_disk N_begin N_end : ℕ) (N_requested : ℤ) (perm : List ℕ) :
    Option (List (List σ)) :=
  if N_end ≤ n_on_disk ∧ N_begin ≤ N_end then
    some ((trajectory_selection perm N_begin N_requested).map load)
  else none

/-- The three split sizes computed by the initial branch of
get_trajectory_split: N_train and N_valid are independent bankers
roundings of n * fraction, and N_test is clamped by
min(round(n * test_fraction), n - N_train - N_valid). -/
def split_counts_init (n : ℕ) (cfg : DataSplitConfig) : ℤ × ℤ × ℤ :=
  let N_train := round_mul n cfg.train_fraction
  let N_valid := round_mul n cfg.valid_fraction
  let N_test := min (round_mul n cfg.test_fraction) ((n : ℤ) - N_train - N_valid)
  (N_train, N_valid, N_test)

/-- The unclamped incremental split sizes computed by the dynamic branch
of get_trajectory_split from the count delta alone. -/
def grow_counts (delta : ℤ) (cfg : DataSplitConfig) : ℤ × ℤ × ℤ :=
  (pyRound (delta * cfg.train_fraction.num) cfg.train_fraction.den,
   pyRound (delta * cfg.valid_fraction.num) cfg.valid_fraction.den,
   pyRound (delta * cfg.test_fraction.num) cfg.test_fraction.den)

/-- The sequential three-way partition of a selected list performed by
both branches of get_trajectory_split: train = xs[:a], then on the
remainder valid = rest[:b] and test = rest[b:]. -/
def partition_three {α : Type} (a b : ℤ) (xs : List α) :
    List α × List α × List α :=
  (pyTake a xs, pyTake b (pyDrop a xs), pyDrop b (pyDrop a xs))

/-- Initial branch of SystemDataManager.get_trajectory_split (no split
exists yet): compute the three clamped sizes from the cached on-disk
count, load the first N_train + N_test + N_valid entries of a random
permutation of range(n_on_disk), partition them sequentially and build
the three TrajectorySets. -/
def initial_trajectory_split {σ : Type} (cfg : DataSplitConfig)
    (scfg : SlicerCfg) (load : ℕ → List σ) (n_on_disk : ℕ) (perm : List ℕ) :
    Option (ManagerSets σ) :=
  let counts := split_counts_init n_on_disk cfg
  let N_tot := counts.1 + counts.2.2 + counts.2.1
  match get_trajectories load n_on_disk 0 n_on_disk N_tot perm with
  | none => none
  | some traj_set =>
    let parts := partition_three counts.1 counts.2.1 traj_set
    match make_trajectory_set scfg parts.1, make_trajectory_set scfg parts.2.1,
          make_trajectory_set scfg parts.2.2 with
    | some ts, some vs, some tes => some ⟨ts, vs, tes, n_on_disk⟩
    | _, _, _ => none

/-- Index-level view of the initial split: the three blocks of selected
trajectory indices (before loading). -/
def initial_split_indices (cfg : DataSplitConfig) (n : ℕ) (perm : List ℕ) :
    List ℕ × List ℕ × List ℕ :=
  let counts := split_counts_init n cfg
  let N_tot := counts.1 + counts.2.2 + counts.2.1
  partition_three counts.1 counts.2.1 (trajectory_selection perm 0 N_tot)

/-- In-place growth of one TrajectorySet performed by the dynamic branch:
set.trajectories.extend(trajectory_list) and
set.slices.add_sliced_trajectory(trajectory) for each new trajectory. -/
def extend_trajectory_set {σ : Type} (scfg : SlicerCfg) (s : TrajectorySet σ)
    (new_trajectories : List (List σ)) : Option (TrajectorySet σ) :=
  (new_trajectories.foldlM (add_sliced_trajectory scfg) s.slices).map fun sl =>
    ⟨sl, s.trajectories ++ new_trajectories⟩

/-- Dynamic branch of SystemDataManager.get_trajectory_split, taken on
every call after the split exists: gated by the Python truthiness of
config.dynamic_updates_from; re-reads the on-disk count (the
n_on_disk_new parameter); a no-op if the count is unchanged; otherwise
computes unclamped incremental sizes from the delta, selects from a
fresh permutation of the new index range only, partitions sequentially
and extends the three existing TrajectorySets in place. -/
def update_trajectory_split {σ : Type} (cfg : DataSplitConfig)
    (scfg : SlicerCfg) (load : ℕ → List σ) (m : ManagerSets σ)
    (n_on_disk_new : ℕ) (perm : List ℕ) : Option (ManagerSets σ) :=
  if pyOptIntTruthy cfg.dynamic_updates_from then
    if n_on_disk_new ≠ m.n_on_disk then
      let counts := grow_counts ((n_on_disk_new : ℤ) - m.n_on_disk) cfg
      let N_tot := counts.1 + counts.2.2 + counts.2.1
      match get_trajectories load n_on_disk_new m.n_on_disk n_on_disk_new
          N_tot perm with
      | none => none
      | some new_traj_set =>
        let parts := partition_three counts.1 counts.2.1 new_traj_set
        match extend_trajectory_set scfg m.train_set parts.1,
              extend_trajectory_set scfg m.valid_set parts.2.1,
              extend_trajectory_set scfg m.test_set parts.2.2 with
        | some ts, some vs, some tes => some ⟨ts, vs, tes, n_on_disk_new⟩
        | _, _, _ => none
    else some m
  else some m

/-- Index-level view of the dynamic growth: the three blocks of newly
selected trajectory indices drawn from the range old .. n2. -/
def grow_split_indices (cfg : DataSplitConfig) (old n2 : ℕ) (perm : List ℕ) :
    List ℕ × List ℕ × List ℕ :=
  let counts := grow_counts ((n2 : ℤ) - old) cfg
  let N_tot := counts.1 + counts.2.2 + counts.2.1
  partition_three counts.1 counts.2.1 (trajectory_selection perm old N_tot)

/-- The filename test performed by get_numeric_file_count through
glob.glob(path.join(directory, "./[0-9]*" + extension)): the basename
starts with one decimal digit and the remainder is anything ending in
the extension. -/
def matches_numeric_glob (ext : List Char) (name : List Char) : Bool :=
  match name with
  | [] => false
  | c :: rest => c.isDigit && ext.isSuffixOf rest

/-- file_utils.get_numeric_file_count: the number of files of the
directory whose basename matches the glob pattern "[0-9]*" + extension.
A directory is modelled as the list of basenames of its files. -/
def get_numeric_file_count (files : List (List Char)) (ext : List Char) : ℕ :=
  (files.filter (matches_numeric_glob ext)).length

/-- Modelled from the spec and from the docstring of
get_numeric_file_count (Number of files with specified extension that
have an integer basename): the name is a non-empty all-digit stem
followed by exactly the extension. This is the documented intent,
stated separately so it can be compared with the glob-based code. -/
def integer_named (ext : List Char) (name : List Char) : Bool :=
  ext.isSuffixOf name && decide (ext.length < name.length) &&
    (name.take (name.length - ext.length)).all Char.isDigit

/-- The count of integer-named files demanded by the documentation of
get_numeric_file_count. -/
def integer_named_count (files : List (List Char)) (ext : List Char) : ℕ :=
  (files.filter (integer_named ext)).length

/-- file_utils.import_data_to_storage: compare the numeric trajectory
counts of the storage data directory and of the import directory; when
they differ, remove the storage data directory wholesale and replace it
by a copy of the import directory; when equal, do nothing. The result
is the new contents of the storage data directory. -/
def import_data_to_storage (storage_data import_data : List (List Char))
    (ext : List Char) : List (List Char) :=
  if get_numeric_file_count storage_data ext =
      get_numeric_file_count import_data ext then storage_data
  else import_data

/-- One pass of the generate loop against an arbitrary (adversarial)
sequence of observed on-disk counts obs : iteration number to re-read
count, modelling concurrent external writers. fuel bounds the number of
iterations that can be unrolled; the Bool result is true when the while
loop exited by its own condition or break, false when fuel ran out with
the loop still running. last_read is the value of the Python variable
n_generated at the loop condition; the returned list collects the
indices of every trajectory file written. Loop body: generate a batch,
re-read the count, break without writing if it equals n_pop, shrink the
batch to min(n_set, n_pop - count) and write that many files at
indices count, count + 1, ... -/
def generate_loop (n_pop : ℕ) (obs : ℕ → ℕ) :
    ℕ → ℕ → ℤ → ℕ → List ℕ × Bool
  | fuel, k, n_set, last_read =>
    if last_read < n_pop then
      match fuel with
      | 0 => ([], false)
      | fuel + 1 =>
        let c := obs k
        if c = n_pop then ([], true)
        else
          let ns := min n_set ((n_pop : ℤ) - c)
          let ws := (List.range ns.toNat).map fun i => c + i
          let r := generate_loop n_pop obs fuel (k + 1) ns c
          (ws ++ r.1, r.2)
    else ([], true)

/-- The generate loop in the single-writer model: no external writer, so
every re-read count equals the previous count plus the files written in
the previous iteration. disk is the current on-disk count, last_read
the stale count tested by the while condition. none means the fuel ran
out (the loop was still running); some (ws, d) means the loop finished
having written indices ws with final on-disk count d. -/
def generate_loop_single (n_pop : ℕ) :
    ℕ → ℤ → ℕ → ℕ → Option (List ℕ × ℕ)
  | fuel, n_set, last_read, disk =>
    if last_read < n_pop then
      match fuel with
      | 0 => none
      | fuel + 1 =>
        if disk = n_pop then some ([], disk)
        else
          let ns := min n_set ((n_pop : ℤ) - disk)
          let ws := (List.range ns.toNat).map fun i => disk + i
          (generate_loop_single n_pop fuel ns disk (disk + ns.toNat)).map
            fun r => (ws ++ r.1, r.2)
    else some ([], disk)

/-- The numbers of newly selected trajectories that actually land in the
train, valid and test blocks during dynamic growth, as a function of the
count delta and the fractions alone: the selection is truncated to the
available delta, and the blocks are cut sequentially. -/
def grow_block_sizes (delta : ℕ) (cfg : DataSplitConfig) : ℕ × ℕ × ℕ :=
  let c := grow_counts (delta : ℤ) cfg
  let selLen := min (c.1 + c.2.2 + c.2.1).toNat delta
  let t := min c.1.toNat selLen
  let v := min c.2.1.toNat (selLen - t)
  (t, v, selLen - t - v)

/-- A concrete manager state over natural-number states with three empty
trajectory sets and a given cached on-disk count, used for concrete
evaluations. -/
def demoManager (c : ℕ) : ManagerSets ℕ :=
  ⟨⟨⟨[], []⟩, []⟩, ⟨⟨[], []⟩, []⟩, ⟨⟨[], []⟩, []⟩, c⟩

/-! ## Lemmas and claim theorems -/

theorem fdiv_bounds (num den : ℤ) (hd : 0 < den) :
    num.fdiv den * den ≤ num ∧ num < (num.fdiv den + 1) * den := by
  rw [Int.fdiv_eq_ediv _ (le_of_lt hd)]
  constructor
  · have := Int.ediv_mul_le num (ne_of_gt hd)
    omega
  · have h1 := Int.emod_lt_of_pos num hd
    have h2 := Int.ediv_add_emod num den
    nlinarith [h1, h2]

theorem pyRound_nonneg (num den : ℤ) (h : 0 ≤ num) (hd : 0 < den) :
    0 ≤ pyRound num den := by
  have h1 : 0 ≤ num.fdiv den := Int.fdiv_nonneg h (le_of_lt hd)
  unfold pyRound
  split
  · exact h1
  · split
    · omega
    · split <;> omega

theorem pyIdx_of_nonneg {L : ℕ} {i : ℤ} (h : 0 ≤ i) :
    pyIdx L i = min i.toNat L := by
  unfold pyIdx
  rw [if_neg (by omega)]

theorem pyTake_of_nonneg {α : Type} {n : ℤ} (xs : List α) (h : 0 ≤ n) :
    pyTake n xs = xs.take n.toNat := by
  unfold pyTake
  rw [pyIdx_of_nonneg h]
  rw [List.take_eq_take]
  omega

theorem pyDrop_of_nonneg {α : Type} {n : ℤ} (xs : List α) (h : 0 ≤ n) :
    pyDrop n xs = xs.drop n.toNat := by
  unfold pyDrop
  rw [pyIdx_of_nonneg h]
  rcases le_or_lt n.toNat xs.length with h1 | h1
  · rw [min_eq_left h1]
  · rw [min_eq_right (le_of_lt h1)]
    rw [List.drop_eq_nil_of_le (le_refl _), List.drop_eq_nil_of_le (le_of_lt h1)]

theorem pyTake_append_pyDrop {α : Type} (n : ℤ) (xs : List α) :
    pyTake n xs ++ pyDrop n xs = xs :=
  List.take_append_drop _ _

theorem pyTake_map {α β : Type} (n : ℤ) (f : α → β) (xs : List α) :
    pyTake n (xs.map f) = (pyTake n xs).map f := by
  unfold pyTake
  rw [List.length_map, List.map_take]

theorem pyDrop_map {α β : Type} (n : ℤ) (f : α → β) (xs : List α) :
    pyDrop n (xs.map f) = (pyDrop n xs).map f := by
  unfold pyDrop
  rw [List.length_map, List.map_drop]

theorem pySlice_of_bounds {α : Type} (xs : List α) {a b : ℤ}
    (ha : 0 ≤ a) (hab : a ≤ b) (hb : b ≤ xs.length) :
    pySlice xs a b = (xs.drop a.toNat).take (b.toNat - a.toNat) := by
  unfold pySlice
  rw [pyIdx_of_nonneg ha, pyIdx_of_nonneg (le_trans ha hab)]
  have h1 : a.toNat ≤ xs.length := by omega
  have h2 : b.toNat ≤ xs.length := by omega
  rw [min_eq_left h1, min_eq_left h2]

theorem pySlice_length {α : Type} (xs : List α) {a b : ℤ}
    (ha : 0 ≤ a) (hab : a ≤ b) (hb : b ≤ xs.length) :
    (pySlice xs a b).length = (b - a).toNat := by
  rw [pySlice_of_bounds xs ha hab hb]
  rw [List.length_take, List.length_drop]
  omega

theorem traj_in_slices_length {σ : Type} (cfg : SlicerCfg) (traj : List σ) :
    (traj_in_slices cfg traj).length =
      traj.length - cfg.t_prediction - cfg.t_skip := by
  simp [traj_in_slices]

theorem traj_out_slices_length {σ : Type} (cfg : SlicerCfg) (traj : List σ) :
    (traj_out_slices cfg traj).length =
      traj.length - cfg.t_prediction - cfg.t_skip := by
  simp [traj_out_slices]

theorem add_sliced_of_length {σ : Type} (cfg : SlicerCfg) (st : SlicerState σ)
    {traj : List σ} (h : cfg.t_skip + cfg.t_prediction ≤ traj.length) :
    add_sliced_trajectory cfg st traj =
      some ⟨st.in_slices ++ traj_in_slices cfg traj,
            st.out_slices ++ traj_out_slices cfg traj⟩ := by
  unfold add_sliced_trajectory
  rw [if_pos (by omega)]

theorem add_sliced_of_short {σ : Type} (cfg : SlicerCfg) (st : SlicerState σ)
    {traj : List σ} (h : traj.length < cfg.t_skip + cfg.t_prediction) :
    add_sliced_trajectory cfg st traj = none := by
  unfold add_sliced_trajectory
  rw [if_neg (by omega)]

theorem traj_in_slices_getElem {σ : Type} (cfg : SlicerCfg) (traj : List σ)
    (hh : cfg.t_history ≤ cfg.t_skip + 1) {k : ℕ}
    (hk : k < traj.length - cfg.t_prediction - cfg.t_skip) :
    (traj_in_slices cfg traj)[k]? =
      some ((traj.drop (cfg.t_skip + k + 1 - cfg.t_history)).take cfg.t_history) := by
  unfold traj_in_slices
  rw [List.getElem?_map, List.getElem?_range hk]
  have hL : cfg.t_skip + k + cfg.t_prediction + 1 ≤ traj.length := by omega
  rw [Option.map_some']
  rw [pySlice_of_bounds traj (by omega) (by omega)
      (by omega)]
  have e1 : ((cfg.t_skip : ℤ) + (k : ℤ) + 1 - cfg.t_history).toNat =
      cfg.t_skip + k + 1 - cfg.t_history := by omega
  rw [e1]
  have e2 : ((cfg.t_skip : ℤ) + (k : ℤ) + 1).toNat -
      (cfg.t_skip + k + 1 - cfg.t_history) = cfg.t_history := by omega
  rw [e2]

theorem traj_out_slices_getElem {σ : Type} (cfg : SlicerCfg) (traj : List σ)
    {k : ℕ} (hk : k < traj.length - cfg.t_prediction - cfg.t_skip) :
    (traj_out_slices cfg traj)[k]? =
      some ((traj.drop (cfg.t_skip + k + 1)).take cfg.t_prediction) := by
  unfold traj_out_slices
  rw [List.getElem?_map, List.getElem?_range hk]
  have hL : cfg.t_skip + k + cfg.t_prediction + 1 ≤ traj.length := by omega
  rw [Option.map_some']
  rw [pySlice_of_bounds traj (by omega) (by omega)
      (by omega)]
  have e1 : ((cfg.t_skip : ℤ) + (k : ℤ) + 1).toNat = cfg.t_skip + k + 1 := by
    omega
  rw [e1]
  have e2 : ((cfg.t_skip : ℤ) + (k : ℤ) + 1 + cfg.t_prediction).toNat -
      (cfg.t_skip + k + 1) = cfg.t_prediction := by omega
  rw [e2]

theorem traj_in_slices_mem_length {σ : Type} (cfg : SlicerCfg) (traj : List σ)
    (hh : cfg.t_history ≤ cfg.t_skip + 1) :
    ∀ s ∈ traj_in_slices cfg traj, s.length = cfg.t_history := by
  intro s hs
  unfold traj_in_slices at hs
  rcases List.mem_map.1 hs with ⟨k, hk, rfl⟩
  rw [List.mem_range] at hk
  have hL : cfg.t_skip + k + cfg.t_prediction + 1 ≤ traj.length := by omega
  rw [pySlice_length traj (by omega) (by omega)
      (by omega)]
  omega

theorem traj_out_slices_mem_length {σ : Type} (cfg : SlicerCfg) (traj : List σ) :
    ∀ s ∈ traj_out_slices cfg traj, s.length = cfg.t_prediction := by
  intro s hs
  unfold traj_out_slices at hs
  rcases List.mem_map.1 hs with ⟨k, hk, rfl⟩
  rw [List.mem_range] at hk
  have hL : cfg.t_skip + k + cfg.t_prediction + 1 ≤ traj.length := by omega
  rw [pySlice_length traj (by omega) (by omega)
      (by omega)]
  omega

theorem foldlM_add_sliced {σ : Type} (cfg : SlicerCfg) :
    ∀ (ts : List (List σ)) (st : SlicerState σ),
      (∀ t ∈ ts, cfg.t_skip + cfg.t_prediction ≤ t.length) →
      ts.foldlM (add_sliced_trajectory cfg) st =
        some ⟨st.in_slices ++ ts.flatMap (traj_in_slices cfg),
              st.out_slices ++ ts.flatMap (traj_out_slices cfg)⟩ := by
  intro ts
  induction ts with
  | nil => intro st _; simp [List.foldlM]
  | cons t ts ih =>
    intro st hlen
    have h1 := add_sliced_of_length cfg st (hlen t (List.mem_cons_self t ts))
    simp only [List.foldlM_cons, h1, Option.bind_eq_bind, Option.some_bind]
    rw [ih _ (fun u hu => hlen u (List.mem_cons_of_mem t hu))]
    simp [List.flatMap_cons, List.append_assoc]

theorem partition_three_append {α : Type} (a b : ℤ) (xs : List α) :
    (partition_three a b xs).1 ++
      ((partition_three a b xs).2.1 ++ (partition_three a b xs).2.2) = xs := by
  unfold partition_three
  rw [pyTake_append_pyDrop, pyTake_append_pyDrop]

theorem partition_three_disjoint {α : Type} (a b : ℤ) (xs : List α)
    (h : xs.Nodup) :
    (partition_three a b xs).1.Disjoint (partition_three a b xs).2.1 ∧
    (partition_three a b xs).1.Disjoint (partition_three a b xs).2.2 ∧
    (partition_three a b xs).2.1.Disjoint (partition_three a b xs).2.2 := by
  unfold partition_three pyTake pyDrop
  have hdtake : List.Disjoint (xs.take (pyIdx xs.length a))
      (xs.drop (pyIdx xs.length a)) :=
    List.disjoint_take_drop h (le_refl _)
  have hdnodup : (xs.drop (pyIdx xs.length a)).Nodup :=
    h.sublist (List.drop_sublist _ _)
  refine ⟨?_, ?_, ?_⟩
  · intro x hx hv
    exact hdtake hx (List.mem_of_mem_take hv)
  · intro x hx hv
    exact hdtake hx (List.drop_subset _ _ hv)
  · exact List.disjoint_take_drop hdnodup (le_refl _)

theorem partition_three_mem {α : Type} (a b : ℤ) (xs : List α) {x : α}
    (h : x ∈ (partition_three a b xs).1 ∨ x ∈ (partition_three a b xs).2.1 ∨
      x ∈ (partition_three a b xs).2.2) : x ∈ xs := by
  unfold partition_three pyTake pyDrop at h
  rcases h with h | h | h
  · exact List.take_subset _ _ h
  · exact List.drop_subset _ _ (List.mem_of_mem_take h)
  · exact List.drop_subset _ _ (List.drop_subset _ _ h)

theorem partition_three_map {α β : Type} (a b : ℤ) (f : α → β) (xs : List α) :
    partition_three a b (xs.map f) =
      ((partition_three a b xs).1.map f, (partition_three a b xs).2.1.map f,
       (partition_three a b xs).2.2.map f) := by
  unfold partition_three
  rw [pyTake_map, pyDrop_map, pyTake_map, pyDrop_map]

theorem partition_three_lengths {α : Type} {a b : ℤ} (xs : List α)
    (ha : 0 ≤ a) (hb : 0 ≤ b) :
    (partition_three a b xs).1.length = min a.toNat xs.length ∧
    (partition_three a b xs).2.1.length =
      min b.toNat (xs.length - a.toNat) ∧
    (partition_three a b xs).2.2.length = xs.length - a.toNat - b.toNat := by
  unfold partition_three
  rw [pyTake_of_nonneg _ ha, pyDrop_of_nonneg _ ha]
  rw [pyTake_of_nonneg _ hb, pyDrop_of_nonneg _ hb]
  refine ⟨?_, ?_, ?_⟩
  · rw [List.length_take]
  · rw [List.length_take, List.length_drop]
  · rw [List.length_drop, List.length_drop]

theorem trajectory_selection_mem {perm : List ℕ} {N_begin : ℕ}
    {N_requested : ℤ} {x : ℕ}
    (h : x ∈ trajectory_selection perm N_begin N_requested) :
    ∃ j ∈ perm, x = j + N_begin := by
  unfold trajectory_selection pyTake at h
  rcases List.mem_map.1 (List.mem_of_mem_take h) with ⟨j, hj, rfl⟩
  exact ⟨j, hj, rfl⟩

theorem trajectory_selection_nodup {perm : List ℕ} (N_begin : ℕ)
    (N_requested : ℤ) (h : perm.Nodup) :
    (trajectory_selection perm N_begin N_requested).Nodup := by
  unfold trajectory_selection pyTake
  exact (h.map fun x y hxy => by omega).sublist (List.take_sublist _ _)

theorem trajectory_selection_length (perm : List ℕ) (N_begin : ℕ)
    {N_requested : ℤ} (h : 0 ≤ N_requested) :
    (trajectory_selection perm N_begin N_requested).length =
      min N_requested.toNat perm.length := by
  unfold trajectory_selection
  rw [pyTake_of_nonneg _ h, List.length_take, List.length_map]

theorem get_trajectories_eq {σ : Type} (load : ℕ → List σ)
    {n_on_disk N_begin N_end : ℕ} (N_requested : ℤ) (perm : List ℕ)
    (h1 : N_end ≤ n_on_disk) (h2 : N_begin ≤ N_end) :
    get_trajectories load n_on_disk N_begin N_end N_requested perm =
      some ((trajectory_selection perm N_begin N_requested).map load) := by
  unfold get_trajectories
  rw [if_pos ⟨h1, h2⟩]

/-- Claim C3, counterexample. The claim states that appending any
trajectory of length L yields exactly max(0, L - t_prediction - t_skip)
slice pairs; for the configuration (t_skip 0, t_history 1,
t_prediction 1) and the empty trajectory (L 0) that maximum is 0, but
the code instead fails its first <= last assertion (none), producing no
successful append at all. -/
theorem claim_C3_counterexample :
    add_sliced_trajectory ⟨0, 1, 1⟩ (⟨[], []⟩ : SlicerState ℕ) [] = none := rfl

/-- Claim C3, amended: for every Slicer configuration with
t_skip + 1 >= t_history, t_history >= 1, t_prediction >= 1, and every
trajectory whose length is at least t_skip + t_prediction (shorter
trajectories fail the assertion instead), appending the trajectory
produces exactly L - t_prediction - t_skip slice pairs, each history
window of length t_history and each future window of length
t_prediction, anchored at the consecutive increasing times t_skip,
t_skip + 1, ... (the pair at position k is the window pair at anchor
t_skip + k). -/
theorem claim_C3_amended {σ : Type} (cfg : SlicerCfg) (st : SlicerState σ)
    (traj : List σ) (hh : cfg.t_history ≤ cfg.t_skip + 1)
    (h1 : 1 ≤ cfg.t_history) (hp : 1 ≤ cfg.t_prediction)
    (hlen : cfg.t_skip + cfg.t_prediction ≤ traj.length) :
    add_sliced_trajectory cfg st traj =
      some ⟨st.in_slices ++ traj_in_slices cfg traj,
            st.out_slices ++ traj_out_slices cfg traj⟩ ∧
    (traj_in_slices cfg traj).length =
      traj.length - cfg.t_prediction - cfg.t_skip ∧
    (traj_out_slices cfg traj).length =
      traj.length - cfg.t_prediction - cfg.t_skip ∧
    (∀ s ∈ traj_in_slices cfg traj, s.length = cfg.t_history) ∧
    (∀ s ∈ traj_out_slices cfg traj, s.length = cfg.t_prediction) ∧
    ∀ k, k < traj.length - cfg.t_prediction - cfg.t_skip →
      (traj_in_slices cfg traj)[k]? =
        some ((traj.drop (cfg.t_skip + k + 1 - cfg.t_history)).take
          cfg.t_history) ∧
      (traj_out_slices cfg traj)[k]? =
        some ((traj.drop (cfg.t_skip + k + 1)).take cfg.t_prediction) :=
  ⟨add_sliced_of_length cfg st hlen,
   traj_in_slices_length cfg traj,
   traj_out_slices_length cfg traj,
   traj_in_slices_mem_length cfg traj hh,
   traj_out_slices_mem_length cfg traj,
   fun k hk => ⟨traj_in_slices_getElem cfg traj hh hk,
                traj_out_slices_getElem cfg traj hk⟩⟩

/-- Claim C3 witness at the configuration (t_skip 1, t_history 2,
t_prediction 1) and a trajectory of length 4, which produces exactly
two slice pairs. -/
theorem claim_C3_witness :
    (2 ≤ 1 + 1 ∧ 1 ≤ 2 ∧ 1 ≤ 1 ∧ 1 + 1 ≤ ([10, 20, 30, 40] : List ℕ).length) ∧
    add_sliced_trajectory ⟨1, 2, 1⟩ (⟨[], []⟩ : SlicerState ℕ) [10, 20, 30, 40] =
      some ⟨[] ++ traj_in_slices ⟨1, 2, 1⟩ [10, 20, 30, 40],
            [] ++ traj_out_slices ⟨1, 2, 1⟩ [10, 20, 30, 40]⟩ :=
  ⟨⟨by decide, by decide, by decide, by decide⟩,
   (claim_C3_amended ⟨1, 2, 1⟩ ⟨[], []⟩ [10, 20, 30, 40] (by decide)
     (by decide) (by decide) (by decide)).1⟩

/-- Claim C4: appending trajectory B after trajectory A (to a balanced
slicer state) yields a slice index space equal to the previous slices
followed by the slices of A followed by the slices of B, and every index
issued before B was appended returns the same (history, future) pair
after the append as before. -/
theorem claim_C4 {σ : Type} (cfg : SlicerCfg) (st0 st1 st2 : SlicerState σ)
    (A B : List σ)
    (hbal : st0.in_slices.length = st0.out_slices.length)
    (h1 : add_sliced_trajectory cfg st0 A = some st1)
    (h2 : add_sliced_trajectory cfg st1 B = some st2) :
    st2.in_slices =
      st0.in_slices ++ traj_in_slices cfg A ++ traj_in_slices cfg B ∧
    st2.out_slices =
      st0.out_slices ++ traj_out_slices cfg A ++ traj_out_slices cfg B ∧
    slice_dataset_len st2 =
      slice_dataset_len st1 + (traj_in_slices cfg B).length ∧
    ∀ i, i < slice_dataset_len st1 →
      get_slice_pair st2 i = get_slice_pair st1 i := by
  unfold add_sliced_trajectory at h1 h2
  split at h1
  case isFalse => cases h1
  case isTrue hgA =>
  injection h1 with h1
  subst h1
  split at h2
  case isFalse => cases h2
  case isTrue hgB =>
  injection h2 with h2
  subst h2
  refine ⟨rfl, rfl, ?_, ?_⟩
  · unfold slice_dataset_len
    simp
    omega
  · intro i hi
    unfold slice_dataset_len at hi
    simp only at hi
    have hAin := traj_in_slices_length cfg A
    have hAout := traj_out_slices_length cfg A
    unfold get_slice_pair
    simp only
    rw [Prod.mk.injEq]
    constructor
    · exact List.getElem?_append_left hi
    · refine List.getElem?_append_left ?_
      rw [List.length_append] at hi ⊢
      omega

/-- Claim C4 witness: a two-step append over concrete trajectories. -/
theorem claim_C4_witness :
    add_sliced_trajectory ⟨0, 1, 1⟩ (⟨[], []⟩ : SlicerState ℕ) [1, 2] =
      some ⟨[[1]], [[2]]⟩ ∧
    add_sliced_trajectory ⟨0, 1, 1⟩ (⟨[[1]], [[2]]⟩ : SlicerState ℕ) [3, 4] =
      some ⟨[[1], [3]], [[2], [4]]⟩ ∧
    (⟨[[1], [3]], [[2], [4]]⟩ : SlicerState ℕ).in_slices =
      [] ++ traj_in_slices ⟨0, 1, 1⟩ [1, 2] ++ traj_in_slices ⟨0, 1, 1⟩ [3, 4] :=
  ⟨rfl, rfl,
   (claim_C4 ⟨0, 1, 1⟩ ⟨[], []⟩ ⟨[[1]], [[2]]⟩ ⟨[[1], [3]], [[2], [4]]⟩
     [1, 2] [3, 4] rfl rfl rfl).1⟩

/-- Claim C7, counterexample. The claim states that a trajectory with
length < t_skip + t_prediction contributes zero slices silently and is
not an error; with (t_skip 1, t_history 1, t_prediction 1) a trajectory
of length 1 makes add_sliced_trajectory fail its assertion (none = an
AssertionError), not a silent no-op. -/
theorem claim_C7_counterexample :
    add_sliced_trajectory ⟨1, 1, 1⟩ (⟨[[0]], [[1]]⟩ : SlicerState ℕ) [5] =
      none := rfl

/-- Claim C7, amended: a trajectory of length exactly
t_skip + t_prediction (the boundary case, which has no valid anchors)
contributes zero slices silently: no error, and the previously stored
slices are unchanged. Strictly shorter trajectories instead fail the
first <= last assertion. -/
theorem claim_C7_amended {σ : Type} (cfg : SlicerCfg) (st : SlicerState σ)
    (traj : List σ) (h : traj.length = cfg.t_skip + cfg.t_prediction) :
    add_sliced_trajectory cfg st traj = some st := by
  rw [add_sliced_of_length cfg st (le_of_eq h.symm)]
  have h0 : traj.length - cfg.t_prediction - cfg.t_skip = 0 := by omega
  unfold traj_in_slices traj_out_slices
  rw [h0]
  simp

/-- Claim C7 witness: a boundary-length trajectory appended to a
non-empty slicer state leaves the state exactly unchanged. -/
theorem claim_C7_witness :
    ([5, 6] : List ℕ).length = 1 + 1 ∧
    add_sliced_trajectory ⟨1, 1, 1⟩ (⟨[[0]], [[1]]⟩ : SlicerState ℕ) [5, 6] =
      some ⟨[[0]], [[1]]⟩ :=
  ⟨rfl, claim_C7_amended ⟨1, 1, 1⟩ ⟨[[0]], [[1]]⟩ [5, 6] rfl⟩

/-- Claim C8: if the numeric trajectory counts of the target data
directory and the import source directory are equal, import is a no-op
on the target; if they differ, the target is wholesale replaced by a
copy of the source, after which its numeric trajectory count equals the
source's count. -/
theorem claim_C8 (storage_data import_data : List (List Char))
    (ext : List Char) :
    (get_numeric_file_count storage_data ext =
        get_numeric_file_count import_data ext →
      import_data_to_storage storage_data import_data ext = storage_data) ∧
    (get_numeric_file_count storage_data ext ≠
        get_numeric_file_count import_data ext →
      import_data_to_storage storage_data import_data ext = import_data ∧
      get_numeric_file_count (import_data_to_storage storage_data
        import_data ext) ext = get_numeric_file_count import_data ext) := by
  unfold import_data_to_storage
  constructor
  · intro h
    rw [if_pos h]
  · intro h
    rw [if_neg h]
    exact ⟨rfl, rfl⟩

/-- Claim C8 witness: a target with one trajectory file and a source
with two differ in count, so the target is replaced by the source. -/
theorem claim_C8_witness :
    get_numeric_file_count [['0', '.', 'p', 't']] ['.', 'p', 't'] ≠
      get_numeric_file_count
        [['0', '.', 'p', 't'], ['1', '.', 'p', 't']] ['.', 'p', 't'] ∧
    import_data_to_storage [['0', '.', 'p', 't']]
        [['0', '.', 'p', 't'], ['1', '.', 'p', 't']] ['.', 'p', 't'] =
      [['0', '.', 'p', 't'], ['1', '.', 'p', 't']] :=
  ⟨by decide,
   ((claim_C8 [['0', '.', 'p', 't']]
     [['0', '.', 'p', 't'], ['1', '.', 'p', 't']] ['.', 'p', 't']).2
     (by decide)).1⟩

/-- Claim C9, code bug. The docstring of get_numeric_file_count (and
the spec) promise the number of files with an integer basename and the
given extension, but the implementation counts every file matching the
glob pattern digit-then-anything-then-extension: the file 1a.pt is
counted although its basename 1a is not an integer. The third conjunct
confirms the cardinality reading on the docstring example
(7.pt, 11.pt, 4.pt): count 3 with gaps, not max-index + 1. -/
theorem claim_C9_code_bug :
    get_numeric_file_count [['1', 'a', '.', 'p', 't']] ['.', 'p', 't'] = 1 ∧
    integer_named_count [['1', 'a', '.', 'p', 't']] ['.', 'p', 't'] = 0 ∧
    get_numeric_file_count
      [['7', '.', 'p', 't'], ['1', '1', '.', 'p', 't'], ['4', '.', 'p', 't']]
      ['.', 'p', 't'] = 3 := by
  decide

/-- Claim C10: get_trajectories asserts n_on_disk >= N_end; on success
it returns exactly min(N_requested, N_end - N_begin) trajectories
(silent truncation instead of an error when the request exceeds the
range), loaded at pairwise-distinct indices that all lie in the range
N_begin .. N_end. -/
theorem claim_C10 {σ : Type} (load : ℕ → List σ)
    (n_on_disk N_begin N_end : ℕ) (N_requested : ℤ) (perm : List ℕ)
    (hperm : perm.Perm (List.range (N_end - N_begin)))
    (hr : 0 ≤ N_requested) :
    (N_end ≤ n_on_disk → N_begin ≤ N_end →
      get_trajectories load n_on_disk N_begin N_end N_requested perm =
        some ((trajectory_selection perm N_begin N_requested).map load) ∧
      ((trajectory_selection perm N_begin N_requested).map load).length =
        min N_requested.toNat (N_end - N_begin) ∧
      (trajectory_selection perm N_begin N_requested).Nodup ∧
      (∀ i ∈ trajectory_selection perm N_begin N_requested,
        N_begin ≤ i ∧ i < N_end)) ∧
    (n_on_disk < N_end →
      get_trajectories load n_on_disk N_begin N_end N_requested perm =
        none) := by
  have hlen : perm.length = N_end - N_begin := by
    rw [hperm.length_eq, List.length_range]
  have hnd : perm.Nodup := hperm.nodup_iff.2 (List.nodup_range _)
  constructor
  · intro h1 h2
    refine ⟨get_trajectories_eq load N_requested perm h1 h2, ?_,
      trajectory_selection_nodup _ _ hnd, ?_⟩
    · rw [List.length_map, trajectory_selection_length perm N_begin hr, hlen]
    · intro i hi
      rcases trajectory_selection_mem hi with ⟨j, hj, rfl⟩
      have hjr : j ∈ List.range (N_end - N_begin) := hperm.mem_iff.1 hj
      rw [List.mem_range] at hjr
      omega
  · intro h
    unfold get_trajectories
    rw [if_neg fun hc => absurd hc.1 (by omega)]

/-- Claim C10 witness on the range 1 .. 4 with three on-disk
trajectories beyond it and a request of two. -/
theorem claim_C10_witness :
    ([2, 0, 1] : List ℕ).Perm (List.range 3) ∧ (0 : ℤ) ≤ 2 ∧
    get_trajectories (fun _ => ([] : List ℕ)) 5 1 4 2 [2, 0, 1] =
      some ((trajectory_selection [2, 0, 1] 1 2).map fun _ => []) :=
  ⟨by decide, by decide,
   ((claim_C10 (fun _ => ([] : List ℕ)) 5 1 4 2 [2, 0, 1] (by decide)
     (by decide)).1 (by decide) (by decide)).1⟩

theorem sel_part_lengths (perm : List ℕ) (delta N_begin : ℕ) (a b tot : ℤ)
    (hperm : perm.Perm (List.range delta)) (ha : 0 ≤ a) (hb : 0 ≤ b)
    (htot : 0 ≤ tot) :
    (partition_three a b (trajectory_selection perm N_begin tot)).1.length =
      min a.toNat (min tot.toNat delta) ∧
    (partition_three a b (trajectory_selection perm N_begin tot)).2.1.length =
      min b.toNat (min tot.toNat delta - a.toNat) ∧
    (partition_three a b (trajectory_selection perm N_begin tot)).2.2.length =
      min tot.toNat delta - a.toNat - b.toNat := by
  have hl : (trajectory_selection perm N_begin tot).length =
      min tot.toNat delta := by
    rw [trajectory_selection_length _ _ htot, hperm.length_eq,
      List.length_range]
  have h3 := partition_three_lengths (trajectory_selection perm N_begin tot)
    ha hb
  rw [hl] at h3
  exact h3

theorem sel_part_disjoint (perm : List ℕ) (N_begin : ℕ) (a b tot : ℤ)
    (hnd : perm.Nodup) :
    (partition_three a b (trajectory_selection perm N_begin tot)).1.Disjoint
      (partition_three a b (trajectory_selection perm N_begin tot)).2.1 ∧
    (partition_three a b (trajectory_selection perm N_begin tot)).1.Disjoint
      (partition_three a b (trajectory_selection perm N_begin tot)).2.2 ∧
    (partition_three a b
        (trajectory_selection perm N_begin tot)).2.1.Disjoint
      (partition_three a b (trajectory_selection perm N_begin tot)).2.2 :=
  partition_three_disjoint a b _ (trajectory_selection_nodup _ _ hnd)

theorem sel_part_bounds (perm : List ℕ) (delta N_begin : ℕ) (a b tot : ℤ)
    (hperm : perm.Perm (List.range delta)) {i : ℕ}
    (h : i ∈ (partition_three a b (trajectory_selection perm N_begin tot)).1 ∨
      i ∈ (partition_three a b (trajectory_selection perm N_begin tot)).2.1 ∨
      i ∈ (partition_three a b (trajectory_selection perm N_begin tot)).2.2) :
    N_begin ≤ i ∧ i < N_begin + delta := by
  have hs := partition_three_mem a b _ h
  rcases trajectory_selection_mem hs with ⟨j, hj, rfl⟩
  have hjr : j ∈ List.range delta := hperm.mem_iff.1 hj
  rw [List.mem_range] at hjr
  omega

/-- Claim C1, counterexample. With on-disk count 3 and fractions
(1/2, 1/2, 0) — each in the unit interval — banker's rounding gives
N_train = N_valid = 2 and a clamped N_test = -1, so only 3 permuted
indices are selected and the valid block receives a single index, not
the N_valid = 2 the claim promises for the sequential blocks. -/
theorem claim_C1_counterexample :
    (initial_split_indices ⟨⟨1, 2⟩, ⟨1, 2⟩, ⟨0, 1⟩, none⟩ 3
      [0, 1, 2]).2.1.length ≠ (round_mul 3 ⟨1, 2⟩).toNat := by
  decide

/-- Claim C1, amended: provided over-allocation does not occur, that is
round(N * train_fraction) + round(N * valid_fraction) <= N (so the
clamped N_test is non-negative), the initial split selects the first
N_train + N_valid + N_test entries of the random permutation of the
index range 0 .. N and partitions them sequentially into train, valid
and test blocks of exactly those sizes; the three blocks are pairwise
disjoint in trajectory index, their sizes sum to
N_train + N_valid + N_test, and every selected index lies below N. -/
theorem claim_C1_amended (cfg : DataSplitConfig) (n : ℕ) (perm : List ℕ)
    (hperm : perm.Perm (List.range n))
    (htr : cfg.train_fraction.inUnit) (hva : cfg.valid_fraction.inUnit)
    (hte : cfg.test_fraction.inUnit)
    (hsum : round_mul n cfg.train_fraction + round_mul n cfg.valid_fraction ≤
      (n : ℤ)) :
    (initial_split_indices cfg n perm).1.length =
      (split_counts_init n cfg).1.toNat ∧
    (initial_split_indices cfg n perm).2.1.length =
      (split_counts_init n cfg).2.1.toNat ∧
    (initial_split_indices cfg n perm).2.2.length =
      (split_counts_init n cfg).2.2.toNat ∧
    (initial_split_indices cfg n perm).1.Disjoint
      (initial_split_indices cfg n perm).2.1 ∧
    (initial_split_indices cfg n perm).1.Disjoint
      (initial_split_indices cfg n perm).2.2 ∧
    (initial_split_indices cfg n perm).2.1.Disjoint
      (initial_split_indices cfg n perm).2.2 ∧
    (initial_split_indices cfg n perm).1.length +
      (initial_split_indices cfg n perm).2.1.length +
      (initial_split_indices cfg n perm).2.2.length =
      ((split_counts_init n cfg).1 + (split_counts_init n cfg).2.1 +
        (split_counts_init n cfg).2.2).toNat ∧
    ∀ i, (i ∈ (initial_split_indices cfg n perm).1 ∨
          i ∈ (initial_split_indices cfg n perm).2.1 ∨
          i ∈ (initial_split_indices cfg n perm).2.2) → i < n := by
  obtain ⟨htd, htn0, htn1⟩ := htr
  obtain ⟨hvd, hvn0, hvn1⟩ := hva
  obtain ⟨hed, hen0, hen1⟩ := hte
  have hNt0 : 0 ≤ round_mul n cfg.train_fraction :=
    pyRound_nonneg _ _ (mul_nonneg (Int.ofNat_nonneg n) htn0) htd
  have hNv0 : 0 ≤ round_mul n cfg.valid_fraction :=
    pyRound_nonneg _ _ (mul_nonneg (Int.ofNat_nonneg n) hvn0) hvd
  have hRe0 : 0 ≤ round_mul n cfg.test_fraction :=
    pyRound_nonneg _ _ (mul_nonneg (Int.ofNat_nonneg n) hen0) hed
  have hc1 : (split_counts_init n cfg).1 = round_mul n cfg.train_fraction := rfl
  have hc2 : (split_counts_init n cfg).2.1 = round_mul n cfg.valid_fraction :=
    rfl
  have hc3 : (split_counts_init n cfg).2.2 =
      min (round_mul n cfg.test_fraction)
        ((n : ℤ) - round_mul n cfg.train_fraction -
          round_mul n cfg.valid_fraction) := rfl
  have hNt0' : 0 ≤ (split_counts_init n cfg).1 := by rw [hc1]; exact hNt0
  have hNv0' : 0 ≤ (split_counts_init n cfg).2.1 := by rw [hc2]; exact hNv0
  have hNe0 : 0 ≤ (split_counts_init n cfg).2.2 := by
    rw [hc3]
    exact le_min hRe0 (by omega)
  have hNele : (split_counts_init n cfg).2.2 ≤
      (n : ℤ) - (split_counts_init n cfg).1 - (split_counts_init n cfg).2.1 := by
    rw [hc1, hc2, hc3]
    exact min_le_right _ _
  have hsum' : (split_counts_init n cfg).1 + (split_counts_init n cfg).2.1 ≤
      (n : ℤ) := by
    rw [hc1, hc2]
    exact hsum
  have hunfold : initial_split_indices cfg n perm =
      partition_three (split_counts_init n cfg).1
        (split_counts_init n cfg).2.1
        (trajectory_selection perm 0
          ((split_counts_init n cfg).1 + (split_counts_init n cfg).2.2 +
            (split_counts_init n cfg).2.1)) := rfl
  have hlen := sel_part_lengths perm n 0 (split_counts_init n cfg).1
    (split_counts_init n cfg).2.1
    ((split_counts_init n cfg).1 + (split_counts_init n cfg).2.2 +
      (split_counts_init n cfg).2.1)
    hperm hNt0' hNv0' (by omega)
  have hdisj := sel_part_disjoint perm 0 (split_counts_init n cfg).1
    (split_counts_init n cfg).2.1
    ((split_counts_init n cfg).1 + (split_counts_init n cfg).2.2 +
      (split_counts_init n cfg).2.1)
    (hperm.nodup_iff.2 (List.nodup_range _))
  rw [← hunfold] at hlen hdisj
  refine ⟨?_, ?_, ?_, hdisj.1, hdisj.2.1, hdisj.2.2, ?_, ?_⟩
  · rw [hlen.1]
    omega
  · rw [hlen.2.1]
    omega
  · rw [hlen.2.2]
    omega
  · rw [hlen.1, hlen.2.1, hlen.2.2]
    omega
  · intro i hi
    rw [hunfold] at hi
    have := sel_part_bounds perm n 0 _ _ _ hperm hi
    omega

/-- Claim C1 witness at the spec example: population 100 and fractions
(1/2, 1/4, 1/4) yield the sizes (50, 25, 25). -/
theorem claim_C1_witness :
    split_counts_init 100 ⟨⟨1, 2⟩, ⟨1, 4⟩, ⟨1, 4⟩, none⟩ = (50, 25, 25) ∧
    (initial_split_indices ⟨⟨1, 2⟩, ⟨1, 4⟩, ⟨1, 4⟩, none⟩ 100
      (List.range 100)).1.length =
      (split_counts_init 100 ⟨⟨1, 2⟩, ⟨1, 4⟩, ⟨1, 4⟩, none⟩).1.toNat :=
  ⟨by decide,
   (claim_C1_amended ⟨⟨1, 2⟩, ⟨1, 4⟩, ⟨1, 4⟩, none⟩ 100 (List.range 100)
     (List.Perm.refl _) ⟨by decide, by decide, by decide⟩
     ⟨by decide, by decide, by decide⟩ ⟨by decide, by decide, by decide⟩
     (by decide)).1⟩

theorem generate_loop_zero (n_pop : ℕ) (obs : ℕ → ℕ) (k : ℕ) (n_set : ℤ)
    (last_read : ℕ) :
    generate_loop n_pop obs 0 k n_set last_read =
      if last_read < n_pop then ([], false) else ([], true) := rfl

theorem generate_loop_succ (n_pop : ℕ) (obs : ℕ → ℕ) (fuel k : ℕ)
    (n_set : ℤ) (last_read : ℕ) :
    generate_loop n_pop obs (fuel + 1) k n_set last_read =
      if last_read < n_pop then
        if obs k = n_pop then ([], true)
        else
          ((List.range (min n_set ((n_pop : ℤ) - obs k)).toNat).map
              (fun i => obs k + i) ++
            (generate_loop n_pop obs fuel (k + 1)
              (min n_set ((n_pop : ℤ) - obs k)) (obs k)).1,
           (generate_loop n_pop obs fuel (k + 1)
              (min n_set ((n_pop : ℤ) - obs k)) (obs k)).2)
      else ([], true) := rfl

theorem generate_loop_writes_lt (n_pop : ℕ) (obs : ℕ → ℕ) :
    ∀ (fuel k : ℕ) (n_set : ℤ) (last_read : ℕ) (w : ℕ),
      w ∈ (generate_loop n_pop obs fuel k n_set last_read).1 → w < n_pop := by
  intro fuel
  induction fuel with
  | zero =>
    intro k n_set lr w hw
    rw [generate_loop_zero] at hw
    split at hw <;> simp at hw
  | succ fuel ih =>
    intro k n_set lr w hw
    rw [generate_loop_succ] at hw
    split at hw
    · split at hw
      · simp at hw
      · rename_i hc
        simp only [List.mem_append] at hw
        rcases hw with hw | hw
        · rcases List.mem_map.1 hw with ⟨i, hi, rfl⟩
          rw [List.mem_range] at hi
          have hmr := min_le_right n_set ((n_pop : ℤ) - obs k)
          omega
        · exact ih (k + 1) _ _ w hw
    · simp at hw

theorem generate_loop_met (n_pop : ℕ) (obs : ℕ → ℕ) (fuel k : ℕ)
    (n_set : ℤ) (last_read : ℕ) (h : n_pop ≤ last_read) :
    generate_loop n_pop obs fuel k n_set last_read = ([], true) := by
  cases fuel with
  | zero =>
    rw [generate_loop_zero, if_neg (by omega)]
  | succ fuel =>
    rw [generate_loop_succ, if_neg (by omega)]

theorem generate_loop_runs (n_pop : ℕ) (obs : ℕ → ℕ)
    (hobs : ∀ j, obs j < n_pop) :
    ∀ (fuel k : ℕ) (n_set : ℤ) (last_read : ℕ), last_read < n_pop →
      (generate_loop n_pop obs fuel k n_set last_read).2 = false := by
  intro fuel
  induction fuel with
  | zero =>
    intro k n_set lr h
    rw [generate_loop_zero, if_pos h]
  | succ fuel ih =>
    intro k n_set lr h
    rw [generate_loop_succ, if_pos h]
    have hc : obs k ≠ n_pop := by
      have := hobs k
      omega
    rw [if_neg hc]
    exact ih (k + 1) _ _ (hobs k)

theorem generate_loop_single_zero (n_pop : ℕ) (n_set : ℤ)
    (last_read disk : ℕ) :
    generate_loop_single n_pop 0 n_set last_read disk =
      if last_read < n_pop then none else some ([], disk) := rfl

theorem generate_loop_single_succ (n_pop fuel : ℕ) (n_set : ℤ)
    (last_read disk : ℕ) :
    generate_loop_single n_pop (fuel + 1) n_set last_read disk =
      if last_read < n_pop then
        if disk = n_pop then some ([], disk)
        else
          (generate_loop_single n_pop fuel (min n_set ((n_pop : ℤ) - disk))
              disk (disk + (min n_set ((n_pop : ℤ) - disk)).toNat)).map
            fun r =>
              ((List.range (min n_set ((n_pop : ℤ) - disk)).toNat).map
                (fun i => disk + i) ++ r.1, r.2)
      else some ([], disk) := rfl

theorem generate_loop_single_reaches (n_pop : ℕ) :
    ∀ (fuel : ℕ) (n_set : ℤ) (last_read disk : ℕ),
      n_pop - disk < fuel → 1 ≤ n_set → last_read ≤ disk → disk ≤ n_pop →
      ∃ ws, generate_loop_single n_pop fuel n_set last_read disk =
        some (ws, n_pop) := by
  intro fuel
  induction fuel with
  | zero =>
    intro n_set lr disk h1 h2 h3 h4
    exact absurd h1 (by omega)
  | succ fuel ih =>
    intro n_set lr disk h1 h2 h3 h4
    by_cases hlr : lr < n_pop
    · rw [generate_loop_single_succ, if_pos hlr]
      by_cases hd : disk = n_pop
      · rw [if_pos hd]
        exact ⟨[], by rw [hd]⟩
      · rw [if_neg hd]
        have hmr := min_le_right n_set ((n_pop : ℤ) - disk)
        have hns2 : (1 : ℤ) ≤ min n_set ((n_pop : ℤ) - disk) :=
          le_min h2 (by omega)
        rcases ih (min n_set ((n_pop : ℤ) - disk)) disk
            (disk + (min n_set ((n_pop : ℤ) - disk)).toNat)
            (by omega) hns2 (by omega) (by omega) with ⟨ws, hws⟩
        refine ⟨(List.range (min n_set ((n_pop : ℤ) - disk)).toNat).map
          (fun i => disk + i) ++ ws, ?_⟩
        rw [hws]
        rfl
    · rw [generate_loop_single_succ, if_neg hlr]
      have hdp : disk = n_pop := by omega
      subst hdp
      exact ⟨[], rfl⟩

/-- Claim C5: (1) every trajectory file the generation loop writes has
an index strictly below n_pop, for every adversarial sequence of
re-read on-disk counts (concurrent external writers); (2) if the target
is already met at the loop condition, the loop stops without writing;
(3) only-when: if the re-read count never reaches n_pop, the loop never
terminates, for any amount of fuel; (4) when: in the single-writer
model the loop terminates with the on-disk count exactly n_pop
(given fuel exceeding n_pop - disk, batch size at least 1). -/
theorem claim_C5 (n_pop : ℕ) (obs : ℕ → ℕ) :
    (∀ (fuel k : ℕ) (n_set : ℤ) (last_read : ℕ) (w : ℕ),
        w ∈ (generate_loop n_pop obs fuel k n_set last_read).1 →
        w < n_pop) ∧
    (∀ (fuel k : ℕ) (n_set : ℤ) (last_read : ℕ), n_pop ≤ last_read →
        generate_loop n_pop obs fuel k n_set last_read = ([], true)) ∧
    ((∀ j, obs j < n_pop) → ∀ (fuel k : ℕ) (n_set : ℤ) (last_read : ℕ),
        last_read < n_pop →
        (generate_loop n_pop obs fuel k n_set last_read).2 = false) ∧
    (∀ (fuel : ℕ) (n_set : ℤ) (last_read disk : ℕ),
        n_pop - disk < fuel → 1 ≤ n_set → last_read ≤ disk →
        disk ≤ n_pop →
        ∃ ws, generate_loop_single n_pop fuel n_set last_read disk =
          some (ws, n_pop)) :=
  ⟨generate_loop_writes_lt n_pop obs,
   fun fuel k n_set lr h => generate_loop_met n_pop obs fuel k n_set lr h,
   fun hobs => generate_loop_runs n_pop obs hobs,
   generate_loop_single_reaches n_pop⟩

/-- Claim C5 witness: with target 5 and a constant observed count 3 the
written index 3 is below 5; with the count already at 6 nothing is
written; with counts stuck below 5 the loop is still running after any
fuel; and the single-writer run from an empty store finishes at
exactly 5. -/
theorem claim_C5_witness :
    (3 ∈ (generate_loop 5 (fun _ => 3) 2 0 30 0).1 → 3 < 5) ∧
    generate_loop 5 (fun _ => 3) 2 0 30 6 = ([], true) ∧
    (generate_loop 5 (fun _ => 3) 4 0 30 0).2 = false ∧
    ∃ ws, generate_loop_single 5 6 30 0 0 = some (ws, 5) :=
  ⟨(claim_C5 5 (fun _ => 3)).1 2 0 30 0 3,
   (claim_C5 5 (fun _ => 3)).2.1 2 0 30 6 (by decide),
   (claim_C5 5 (fun _ => 3)).2.2.1 (fun _ => by decide) 4 0 30 0 (by decide),
   (claim_C5 5 (fun _ => 3)).2.2.2 6 30 0 0 (by decide) (by decide)
     (by decide) (by decide)⟩

theorem extend_trajectory_set_eq {σ : Type} (scfg : SlicerCfg)
    (s : TrajectorySet σ) (ts : List (List σ))
    (h : ∀ t ∈ ts, scfg.t_skip + scfg.t_prediction ≤ t.length) :
    extend_trajectory_set scfg s ts =
      some ⟨⟨s.slices.in_slices ++ ts.flatMap (traj_in_slices scfg),
             s.slices.out_slices ++ ts.flatMap (traj_out_slices scfg)⟩,
            s.trajectories ++ ts⟩ := by
  unfold extend_trajectory_set
  rw [foldlM_add_sliced scfg ts s.slices h]
  rfl

theorem update_grow_eq {σ : Type} (cfg : DataSplitConfig) (scfg : SlicerCfg)
    (load : ℕ → List σ) (m : ManagerSets σ) (n2 : ℕ) (perm : List ℕ)
    (htruthy : pyOptIntTruthy cfg.dynamic_updates_from = true)
    (hgrow : m.n_on_disk < n2)
    (hload : ∀ i, scfg.t_skip + scfg.t_prediction ≤ (load i).length) :
    update_trajectory_split cfg scfg load m n2 perm =
      some ⟨⟨⟨m.train_set.slices.in_slices ++
              ((grow_split_indices cfg m.n_on_disk n2 perm).1.map load).flatMap
                (traj_in_slices scfg),
             m.train_set.slices.out_slices ++
              ((grow_split_indices cfg m.n_on_disk n2 perm).1.map load).flatMap
                (traj_out_slices scfg)⟩,
            m.train_set.trajectories ++
              (grow_split_indices cfg m.n_on_disk n2 perm).1.map load⟩,
           ⟨⟨m.valid_set.slices.in_slices ++
              ((grow_split_indices cfg m.n_on_disk n2 perm).2.1.map
                load).flatMap (traj_in_slices scfg),
             m.valid_set.slices.out_slices ++
              ((grow_split_indices cfg m.n_on_disk n2 perm).2.1.map
                load).flatMap (traj_out_slices scfg)⟩,
            m.valid_set.trajectories ++
              (grow_split_indices cfg m.n_on_disk n2 perm).2.1.map load⟩,
           ⟨⟨m.test_set.slices.in_slices ++
              ((grow_split_indices cfg m.n_on_disk n2 perm).2.2.map
                load).flatMap (traj_in_slices scfg),
             m.test_set.slices.out_slices ++
              ((grow_split_indices cfg m.n_on_disk n2 perm).2.2.map
                load).flatMap (traj_out_slices scfg)⟩,
            m.test_set.trajectories ++
              (grow_split_indices cfg m.n_on_disk n2 perm).2.2.map load⟩,
           n2⟩ := by
  have hb : ∀ t ∈ (grow_split_indices cfg m.n_on_disk n2 perm).1.map load,
      scfg.t_skip + scfg.t_prediction ≤ t.length := by
    intro t ht
    rcases List.mem_map.1 ht with ⟨i, _, rfl⟩
    exact hload i
  have hb2 : ∀ t ∈ (grow_split_indices cfg m.n_on_disk n2 perm).2.1.map load,
      scfg.t_skip + scfg.t_prediction ≤ t.length := by
    intro t ht
    rcases List.mem_map.1 ht with ⟨i, _, rfl⟩
    exact hload i
  have hb3 : ∀ t ∈ (grow_split_indices cfg m.n_on_disk n2 perm).2.2.map load,
      scfg.t_skip + scfg.t_prediction ≤ t.length := by
    intro t ht
    rcases List.mem_map.1 ht with ⟨i, _, rfl⟩
    exact hload i
  unfold update_trajectory_split
  rw [if_pos htruthy, if_pos (show n2 ≠ m.n_on_disk by omega)]
  dsimp only
  rw [get_trajectories_eq load _ perm (le_refl n2) (le_of_lt hgrow)]
  have hparts : partition_three
      (grow_counts ((n2 : ℤ) - m.n_on_disk) cfg).1
      (grow_counts ((n2 : ℤ) - m.n_on_disk) cfg).2.1
      ((trajectory_selection perm m.n_on_disk
        ((grow_counts ((n2 : ℤ) - m.n_on_disk) cfg).1 +
         (grow_counts ((n2 : ℤ) - m.n_on_disk) cfg).2.2 +
         (grow_counts ((n2 : ℤ) - m.n_on_disk) cfg).2.1)).map load) =
      ((grow_split_indices cfg m.n_on_disk n2 perm).1.map load,
       (grow_split_indices cfg m.n_on_disk n2 perm).2.1.map load,
       (grow_split_indices cfg m.n_on_disk n2 perm).2.2.map load) :=
    partition_three_map _ _ load _
  simp only [hparts]
  rw [extend_trajectory_set_eq scfg m.train_set _ hb,
    extend_trajectory_set_eq scfg m.valid_set _ hb2,
    extend_trajectory_set_eq scfg m.test_set _ hb3]

/-- Claim C2, counterexample. The claim covers dynamic_updates_from = 0
(non-null). With threshold 0 the manager is in dynamic mode by the
constructor dispatch (which tests is-not-None), but the update branch
tests Python truthiness (elif config.dynamic_updates_from), and 0 is
falsy: after the count grows from 2 to 5 the call leaves all three sets
unchanged, although the claim requires the 3 new trajectories to be
drawn and appended (train alone should receive round(3 * 0.5) = 2). -/
theorem claim_C2_counterexample :
    update_trajectory_split ⟨⟨1, 2⟩, ⟨1, 4⟩, ⟨1, 4⟩, some 0⟩ ⟨0, 1, 1⟩
      (fun i => [i]) (demoManager 2) 5 [0, 1, 2] = some (demoManager 2) ∧
    (grow_counts 3 ⟨⟨1, 2⟩, ⟨1, 4⟩, ⟨1, 4⟩, some 0⟩).1 = 2 ∧
    (demoManager 2).train_set.trajectories.length = 0 :=
  ⟨rfl, by decide, rfl⟩

/-- Claim C2, amended: for every manager in dynamic mode with a non-null
and non-zero dynamic_updates_from, a call after the initial split is a
no-op when the re-read on-disk count is unchanged; when the count has
grown, the newly added trajectories are drawn from a permutation of the
new index range old .. new only, every previously existing entry of
each of the three Trajectory Sets is untouched (each trajectory list
and slice list is extended append-only), and the three blocks of new
indices are pairwise disjoint, so a trajectory once assigned to one
split never appears in another. -/
theorem claim_C2_amended {σ : Type} (cfg : DataSplitConfig)
    (scfg : SlicerCfg) (load : ℕ → List σ) (m : ManagerSets σ) (n2 : ℕ)
    (perm : List ℕ) (d : ℤ)
    (hdu : cfg.dynamic_updates_from = some d) (hd : d ≠ 0)
    (hperm : perm.Perm (List.range (n2 - m.n_on_disk)))
    (hload : ∀ i, scfg.t_skip + scfg.t_prediction ≤ (load i).length) :
    (n2 = m.n_on_disk →
      update_trajectory_split cfg scfg load m n2 perm = some m) ∧
    (m.n_on_disk < n2 →
      ∃ m', update_trajectory_split cfg scfg load m n2 perm = some m' ∧
        m'.train_set.trajectories = m.train_set.trajectories ++
          (grow_split_indices cfg m.n_on_disk n2 perm).1.map load ∧
        m'.valid_set.trajectories = m.valid_set.trajectories ++
          (grow_split_indices cfg m.n_on_disk n2 perm).2.1.map load ∧
        m'.test_set.trajectories = m.test_set.trajectories ++
          (grow_split_indices cfg m.n_on_disk n2 perm).2.2.map load ∧
        m'.train_set.slices.in_slices = m.train_set.slices.in_slices ++
          ((grow_split_indices cfg m.n_on_disk n2 perm).1.map load).flatMap
            (traj_in_slices scfg) ∧
        m'.valid_set.slices.in_slices = m.valid_set.slices.in_slices ++
          ((grow_split_indices cfg m.n_on_disk n2 perm).2.1.map load).flatMap
            (traj_in_slices scfg) ∧
        m'.test_set.slices.in_slices = m.test_set.slices.in_slices ++
          ((grow_split_indices cfg m.n_on_disk n2 perm).2.2.map load).flatMap
            (traj_in_slices scfg) ∧
        m'.train_set.slices.out_slices = m.train_set.slices.out_slices ++
          ((grow_split_indices cfg m.n_on_disk n2 perm).1.map load).flatMap
            (traj_out_slices scfg) ∧
        m'.valid_set.slices.out_slices = m.valid_set.slices.out_slices ++
          ((grow_split_indices cfg m.n_on_disk n2 perm).2.1.map load).flatMap
            (traj_out_slices scfg) ∧
        m'.test_set.slices.out_slices = m.test_set.slices.out_slices ++
          ((grow_split_indices cfg m.n_on_disk n2 perm).2.2.map load).flatMap
            (traj_out_slices scfg) ∧
        m'.n_on_disk = n2 ∧
        (grow_split_indices cfg m.n_on_disk n2 perm).1.Disjoint
          (grow_split_indices cfg m.n_on_disk n2 perm).2.1 ∧
        (grow_split_indices cfg m.n_on_disk n2 perm).1.Disjoint
          (grow_split_indices cfg m.n_on_disk n2 perm).2.2 ∧
        (grow_split_indices cfg m.n_on_disk n2 perm).2.1.Disjoint
          (grow_split_indices cfg m.n_on_disk n2 perm).2.2 ∧
        ∀ i, (i ∈ (grow_split_indices cfg m.n_on_disk n2 perm).1 ∨
              i ∈ (grow_split_indices cfg m.n_on_disk n2 perm).2.1 ∨
              i ∈ (grow_split_indices cfg m.n_on_disk n2 perm).2.2) →
          m.n_on_disk ≤ i ∧ i < n2) := by
  have htruthy : pyOptIntTruthy cfg.dynamic_updates_from = true := by
    rw [hdu]
    simp [pyOptIntTruthy, hd]
  constructor
  · intro heq
    unfold update_trajectory_split
    rw [if_pos htruthy, if_neg (by omega)]
  · intro hgrow
    have hunfold : grow_split_indices cfg m.n_on_disk n2 perm =
        partition_three (grow_counts ((n2 : ℤ) - m.n_on_disk) cfg).1
          (grow_counts ((n2 : ℤ) - m.n_on_disk) cfg).2.1
          (trajectory_selection perm m.n_on_disk
            ((grow_counts ((n2 : ℤ) - m.n_on_disk) cfg).1 +
             (grow_counts ((n2 : ℤ) - m.n_on_disk) cfg).2.2 +
             (grow_counts ((n2 : ℤ) - m.n_on_disk) cfg).2.1)) := rfl
    have hdisj := sel_part_disjoint perm m.n_on_disk
      (grow_counts ((n2 : ℤ) - m.n_on_disk) cfg).1
      (grow_counts ((n2 : ℤ) - m.n_on_disk) cfg).2.1
      ((grow_counts ((n2 : ℤ) - m.n_on_disk) cfg).1 +
       (grow_counts ((n2 : ℤ) - m.n_on_disk) cfg).2.2 +
       (grow_counts ((n2 : ℤ) - m.n_on_disk) cfg).2.1)
      (hperm.nodup_iff.2 (List.nodup_range _))
    rw [← hunfold] at hdisj
    refine ⟨_, update_grow_eq cfg scfg load m n2 perm htruthy hgrow hload,
      rfl, rfl, rfl, rfl, rfl, rfl, rfl, rfl, rfl, rfl,
      hdisj.1, hdisj.2.1, hdisj.2.2, ?_⟩
    intro i hi
    rw [hunfold] at hi
    have := sel_part_bounds perm (n2 - m.n_on_disk) m.n_on_disk _ _ _
      hperm hi
    omega

/-- Claim C2 witness: threshold 1, count grown from 2 to 5; the train
set is extended by the mapped train block of the fresh permutation. -/
theorem claim_C2_witness :
    (1 : ℤ) ≠ 0 ∧
    (∃ m', update_trajectory_split ⟨⟨1, 2⟩, ⟨1, 4⟩, ⟨1, 4⟩, some 1⟩
        ⟨0, 1, 1⟩ (fun i => [i]) (demoManager 2) 5 [0, 1, 2] = some m' ∧
      m'.train_set.trajectories = (demoManager 2).train_set.trajectories ++
        (grow_split_indices ⟨⟨1, 2⟩, ⟨1, 4⟩, ⟨1, 4⟩, some 1⟩ 2 5
          [0, 1, 2]).1.map fun i => [i]) := by
  refine ⟨by decide, ?_⟩
  rcases (claim_C2_amended ⟨⟨1, 2⟩, ⟨1, 4⟩, ⟨1, 4⟩, some 1⟩ ⟨0, 1, 1⟩
      (fun i => [i]) (demoManager 2) 5 [0, 1, 2] 1 rfl (by decide)
      (List.Perm.refl _) (fun i => le_refl 1)).2 (by decide) with
    ⟨m', h1, h2, _⟩
  exact ⟨m', h1, h2⟩

/-- Claim C6: during dynamic growth the incremental sizes are computed
from the count delta alone — never from the cumulative total — as the
unclamped roundings round(delta * fraction) (grow_counts), and the
numbers of trajectories actually appended to the three sets are the
delta-only function grow_block_sizes, whose components always sum to
min(N_train + N_valid + N_test, delta). In particular for a growth of
100 to 130 with fractions (1/2, 1/4, 1/4): the requested sizes are
(15, 8, 8) with no clamp applied to the test count (a clamp would give
7), the blocks actually appended are (15, 8, 7), and exactly
15 + 8 + 7 = 30 new trajectories are distributed. -/
theorem claim_C6 {σ : Type} (cfg : DataSplitConfig) (scfg : SlicerCfg)
    (load : ℕ → List σ) (m : ManagerSets σ) (n2 : ℕ) (perm : List ℕ)
    (d : ℤ) (hdu : cfg.dynamic_updates_from = some d) (hd : d ≠ 0)
    (hgrow : m.n_on_disk < n2)
    (hperm : perm.Perm (List.range (n2 - m.n_on_disk)))
    (hload : ∀ i, scfg.t_skip + scfg.t_prediction ≤ (load i).length)
    (htr : cfg.train_fraction.inUnit) (hva : cfg.valid_fraction.inUnit)
    (hte : cfg.test_fraction.inUnit) :
    (∃ m', update_trajectory_split cfg scfg load m n2 perm = some m' ∧
      m'.train_set.trajectories.length =
        m.train_set.trajectories.length +
          (grow_block_sizes (n2 - m.n_on_disk) cfg).1 ∧
      m'.valid_set.trajectories.length =
        m.valid_set.trajectories.length +
          (grow_block_sizes (n2 - m.n_on_disk) cfg).2.1 ∧
      m'.test_set.trajectories.length =
        m.test_set.trajectories.length +
          (grow_block_sizes (n2 - m.n_on_disk) cfg).2.2 ∧
      (grow_block_sizes (n2 - m.n_on_disk) cfg).1 +
        (grow_block_sizes (n2 - m.n_on_disk) cfg).2.1 +
        (grow_block_sizes (n2 - m.n_on_disk) cfg).2.2 =
        min ((grow_counts ((n2 : ℤ) - m.n_on_disk) cfg).1 +
          (grow_counts ((n2 : ℤ) - m.n_on_disk) cfg).2.2 +
          (grow_counts ((n2 : ℤ) - m.n_on_disk) cfg).2.1).toNat
          (n2 - m.n_on_disk)) ∧
    grow_counts 30 ⟨⟨1, 2⟩, ⟨1, 4⟩, ⟨1, 4⟩, some 1⟩ = (15, 8, 8) ∧
    grow_block_sizes 30 ⟨⟨1, 2⟩, ⟨1, 4⟩, ⟨1, 4⟩, some 1⟩ = (15, 8, 7) := by
  obtain ⟨htd, htn0, htn1⟩ := htr
  obtain ⟨hvd, hvn0, hvn1⟩ := hva
  obtain ⟨hed, hen0, hen1⟩ := hte
  have htruthy : pyOptIntTruthy cfg.dynamic_updates_from = true := by
    rw [hdu]
    simp [pyOptIntTruthy, hd]
  have hdz : (0 : ℤ) ≤ (n2 : ℤ) - m.n_on_disk := by omega
  have ha : 0 ≤ (grow_counts ((n2 : ℤ) - m.n_on_disk) cfg).1 :=
    pyRound_nonneg _ _ (mul_nonneg hdz htn0) htd
  have hb : 0 ≤ (grow_counts ((n2 : ℤ) - m.n_on_disk) cfg).2.1 :=
    pyRound_nonneg _ _ (mul_nonneg hdz hvn0) hvd
  have hc : 0 ≤ (grow_counts ((n2 : ℤ) - m.n_on_disk) cfg).2.2 :=
    pyRound_nonneg _ _ (mul_nonneg hdz hen0) hed
  have hcast : (((n2 - m.n_on_disk : ℕ)) : ℤ) = (n2 : ℤ) - m.n_on_disk := by
    omega
  have hunfold : grow_split_indices cfg m.n_on_disk n2 perm =
      partition_three (grow_counts ((n2 : ℤ) - m.n_on_disk) cfg).1
        (grow_counts ((n2 : ℤ) - m.n_on_disk) cfg).2.1
        (trajectory_selection perm m.n_on_disk
          ((grow_counts ((n2 : ℤ) - m.n_on_disk) cfg).1 +
           (grow_counts ((n2 : ℤ) - m.n_on_disk) cfg).2.2 +
           (grow_counts ((n2 : ℤ) - m.n_on_disk) cfg).2.1)) := rfl
  have hlen := sel_part_lengths perm (n2 - m.n_on_disk) m.n_on_disk
    (grow_counts ((n2 : ℤ) - m.n_on_disk) cfg).1
    (grow_counts ((n2 : ℤ) - m.n_on_disk) cfg).2.1
    ((grow_counts ((n2 : ℤ) - m.n_on_disk) cfg).1 +
     (grow_counts ((n2 : ℤ) - m.n_on_disk) cfg).2.2 +
     (grow_counts ((n2 : ℤ) - m.n_on_disk) cfg).2.1)
    hperm ha hb (by omega)
  rw [← hunfold] at hlen
  have hgbs : grow_block_sizes (n2 - m.n_on_disk) cfg =
      (min (grow_counts ((n2 : ℤ) - m.n_on_disk) cfg).1.toNat
        (min ((grow_counts ((n2 : ℤ) - m.n_on_disk) cfg).1 +
          (grow_counts ((n2 : ℤ) - m.n_on_disk) cfg).2.2 +
          (grow_counts ((n2 : ℤ) - m.n_on_disk) cfg).2.1).toNat
          (n2 - m.n_on_disk)),
       min (grow_counts ((n2 : ℤ) - m.n_on_disk) cfg).2.1.toNat
        (min ((grow_counts ((n2 : ℤ) - m.n_on_disk) cfg).1 +
          (grow_counts ((n2 : ℤ) - m.n_on_disk) cfg).2.2 +
          (grow_counts ((n2 : ℤ) - m.n_on_disk) cfg).2.1).toNat
          (n2 - m.n_on_disk) -
          (grow_counts ((n2 : ℤ) - m.n_on_disk) cfg).1.toNat),
       min ((grow_counts ((n2 : ℤ) - m.n_on_disk) cfg).1 +
          (grow_counts ((n2 : ℤ) - m.n_on_disk) cfg).2.2 +
          (grow_counts ((n2 : ℤ) - m.n_on_disk) cfg).2.1).toNat
          (n2 - m.n_on_disk) -
          (grow_counts ((n2 : ℤ) - m.n_on_disk) cfg).1.toNat -
          (grow_counts ((n2 : ℤ) - m.n_on_disk) cfg).2.1.toNat) := by
    unfold grow_block_sizes
    rw [hcast]
    have h1 : ∀ S a b : ℕ, min b (S - min a S) = min b (S - a) := by
      intro S a b
      omega
    have h2 : ∀ S a b : ℕ, S - min a S - min b (S - min a S) =
        S - a - b := by
      intro S a b
      omega
    rw [Prod.mk.injEq, Prod.mk.injEq]
    exact ⟨rfl, h1 _ _ _, h2 _ _ _⟩
  refine ⟨⟨_, update_grow_eq cfg scfg load m n2 perm htruthy hgrow hload,
    ?_, ?_, ?_, ?_⟩, by decide, by decide⟩
  · simp only [List.length_append, List.length_map]
    rw [hlen.1, hgbs]
  · simp only [List.length_append, List.length_map]
    rw [hlen.2.1, hgbs]
  · simp only [List.length_append, List.length_map]
    rw [hlen.2.2, hgbs]
  · rw [hgbs]
    simp only
    omega

/-- Claim C6 witness: the growth from 100 to 130 with fractions
(1/2, 1/4, 1/4) appends exactly grow_block_sizes 30 = (15, 8, 7) to the
three sets. -/
theorem claim_C6_witness :
    grow_block_sizes 30 ⟨⟨1, 2⟩, ⟨1, 4⟩, ⟨1, 4⟩, some 1⟩ = (15, 8, 7) ∧
    (∃ m', update_trajectory_split ⟨⟨1, 2⟩, ⟨1, 4⟩, ⟨1, 4⟩, some 1⟩
        ⟨0, 1, 1⟩ (fun i => [i]) (demoManager 100) 130 (List.range 30) =
        some m' ∧
      m'.train_set.trajectories.length =
        (demoManager 100).train_set.trajectories.length +
          (grow_block_sizes (130 - (demoManager 100).n_on_disk)
            ⟨⟨1, 2⟩, ⟨1, 4⟩, ⟨1, 4⟩, some 1⟩).1) := by
  refine ⟨by decide, ?_⟩
  rcases (claim_C6 ⟨⟨1, 2⟩, ⟨1, 4⟩, ⟨1, 4⟩, some 1⟩ ⟨0, 1, 1⟩
      (fun i => [i]) (demoManager 100) 130 (List.range 30) 1 rfl
      (by decide) (by decide) (List.Perm.refl _) (fun i => le_refl 1)
      ⟨by decide, by decide, by decide⟩ ⟨by decide, by decide, by decide⟩
      ⟨by decide, by decide, by decide⟩).1 with ⟨m', h1, h2, _⟩
  exact ⟨m', h1, h2⟩
